import Mathlib

/-!
# Verification of the gpt-cli streaming chat client

Shallow embedding of `src/cmd/gpt/main.go` (package main of jianyuan/gpt-cli).

The program is a bubbletea terminal chat client.  Its logic splits into

* the UI event loop: the pure `Update` method of the `model` struct, embedded
  here as `update : Model → Msg → Option StepResult` (the `Option` makes the
  one unguarded slice index of the Go code — `m.messages[len(m.messages)-1]`
  in the `deltaMsg` branch — an explicit failure case: `none` models the
  runtime panic on an empty transcript);

* the completion requester: the command closure returned by
  `createChatCompletion`, an infinite loop over two unbuffered channels,
  embedded as the script-indexed function `createChatCompletion` below
  (the environment — the remote service — is represented by one
  `StreamScript` per issued request);

* the whole concurrent system — event loop, requester goroutine, the two
  unbuffered hand-off channels `inputMessage`/`deltaMessage`, the armed
  `waitForDelta` receiver and the bubbletea message queue — embedded as a
  small-step transition relation `SysStep` on states `Sys`.

External collaborators (the bubbles `textarea` and `viewport` widgets,
lipgloss styling, the openai client transport) are modelled only through the
interface the program uses: value/width/char-limit for the textarea, content
and scroll-to-bottom for the viewport, and a styled-string renderer.
-/

set_option autoImplicit false

namespace GptCli

/-! ## Styling (lipgloss)

`lipgloss.NewStyle().Foreground(lipgloss.Color("5")).Render(s)` wraps `s` in
the terminal escape codes selecting ANSI foreground color 5 (the exact bytes
are terminal-profile dependent; we fix the standard ones — no claim depends on
the particular codes, only on the rendered label being prepended). -/

/-- Model of the lipgloss style `Foreground(Color("5"))` applied by `Render`. -/
def renderColor5 (s : String) : String := "\x1b[35m" ++ s ++ "\x1b[0m"

/-- The styled `"You: "` label prepended to each user transcript line
(main.go line 130). -/
def youLabel : String := renderColor5 "You: "

/-- The styled `"System: "` placeholder starting each response transcript line
(main.go line 131). -/
def sysLabel : String := renderColor5 "System: "

/-! ## Widget models (bubbles textarea / viewport, external collaborators) -/

/-- The slice of the bubbles `textarea.Model` state the program depends on:
the composed text (`Value`/`Reset`), the width (`SetWidth`) and the character
limit (`CharLimit`, set to 280 in `initialModel`). -/
structure Textarea where
  value : String
  width : Int
  charLimit : Nat
  deriving Repr, DecidableEq

/-- The slice of the bubbles `viewport.Model` state the program depends on:
the displayed content (`SetContent`), the dimensions, and whether the view is
pinned to the bottom (`GotoBottom`). -/
structure Viewport where
  content : String
  width : Int
  height : Int
  atBottom : Bool
  deriving Repr, DecidableEq

/-! ## Messages and commands -/

/-- The key types the `Update` switch distinguishes (`tea.KeyCtrlC`,
`tea.KeyEsc`, `tea.KeyEnter`) plus ordinary character keys, which fall through
to the widgets. -/
inductive Key where
  | ctrlC
  | esc
  | enter
  | char (c : Char)
  deriving Repr, DecidableEq

/-- The `tea.Msg` values the program handles: key presses,
`tea.WindowSizeMsg`, the program-defined `deltaMsg` (one streamed text
fragment) and `errMsg` (a requester error). -/
inductive Msg where
  | key (k : Key)
  | resize (w h : Int)
  | delta (s : String)
  | err (e : String)
  deriving Repr, DecidableEq

/-- The commands `Update` can return: `waitForDelta m.deltaMessage` (re-arm
the fragment receiver) or an opaque widget command (`tiCmd`/`vpCmd`,
`textarea.Blink`, ...).  `tea.Quit` and the channel send are tracked by the
`quit` and `sent` fields of `StepResult` instead. -/
inductive Cmd where
  | waitForDelta
  | widget
  deriving Repr, DecidableEq

/-- The UI state owned by the event loop: the `model` struct of main.go
restricted to the fields its logic reads or writes (the cosmetic `goos` and
`shell` strings and the `client` handle are never used by `Update` and are
omitted). -/
structure Model where
  width : Int
  height : Int
  textarea : Textarea
  viewport : Viewport
  err : Option String
  messages : List String
  deriving Repr, DecidableEq

/-- Everything one call of `Update` produces: the new model, the returned
commands in order, the text printed to standard output (quit branch), whether
`tea.Quit` was returned, and the value sent on the `inputMessage` channel
(enter branch; the send blocks until the requester receives). -/
structure StepResult where
  model : Model
  cmds : List Cmd
  printed : Option String := none
  quit : Bool := false
  sent : Option String := none
  deriving Repr, DecidableEq

/-- The initial model built by `initialModel` (main.go lines 59–104): a fresh
280-char-limit textarea of width 300, a 100×5 viewport showing the welcome
text (which fits the view, hence at bottom), no error, and an empty
transcript. -/
def initialModel : Model where
  width := 0
  height := 0
  textarea := { value := "", width := 300, charLimit := 280 }
  viewport :=
    { content := "Welcome to the chat room!\nType a message and press Enter to send."
      width := 100, height := 5, atBottom := true }
  err := none
  messages := []

/-! ## Widget update delegation

After its own switch, `Update` forwards the message to
`m.textarea.Update(msg)` and `m.viewport.Update(msg)` (main.go lines
155–156).  Of that third-party behaviour the claims only need: a character
key appends to the textarea value when under the char limit; the enter key
inserts nothing (`InsertNewline` is disabled in `initialModel`); and neither
widget changes its state on `WindowSizeMsg`, `deltaMsg` or `errMsg`. -/

/-- Model of `textarea.Model.Update` restricted to the behaviour the program
relies on. -/
def textareaUpdate (ta : Textarea) (msg : Msg) : Textarea :=
  match msg with
  | .key (.char c) =>
      if ta.value.length < ta.charLimit then { ta with value := ta.value.push c } else ta
  | _ => ta

/-- Model of `viewport.Model.Update` restricted to the behaviour the program
relies on (internal scroll-key handling is orthogonal to every claim). -/
def viewportUpdate (vp : Viewport) (_ : Msg) : Viewport := vp

/-- The common tail of `Update`: delegate the message to both widgets. -/
def widgetPass (m : Model) (msg : Msg) : Model :=
  { m with textarea := textareaUpdate m.textarea msg
           viewport := viewportUpdate m.viewport msg }

/-! ## The event loop: `Update` (main.go lines 114–160) -/

/-- Shallow embedding of `model.Update`.  Branches, in source order:

* `tea.KeyCtrlC, tea.KeyEsc` (lines 125–127): print the textarea value,
  return `tea.Quit` (early return, no widget delegation);
* `tea.KeyEnter` (lines 128–136): append the styled user line and the
  `"System: "` placeholder, set the viewport content, reset the textarea,
  scroll to bottom, send the message on `inputMessage`, then fall through to
  the widgets;
* `tea.WindowSizeMsg` (lines 138–143): store the dimensions and set the
  textarea width (the viewport is not resized — see the TODO in the source);
* `deltaMsg` (lines 145–149): append the fragment to the last transcript line
  via the unguarded index `m.messages[len(m.messages)-1]` — `none` models the
  Go runtime panic when the transcript is empty — update the viewport, scroll
  to bottom, and re-arm `waitForDelta`;
* `errMsg` (lines 150–152): record the error and return early with no
  commands;
* any other key falls through to the widget delegation only. -/
def update (m : Model) (msg : Msg) : Option StepResult :=
  match msg with
  | .key .ctrlC =>
      some { model := m, cmds := [], printed := some m.textarea.value, quit := true }
  | .key .esc =>
      some { model := m, cmds := [], printed := some m.textarea.value, quit := true }
  | .key .enter =>
      let message := m.textarea.value
      let msgs := (m.messages ++ [youLabel ++ message]) ++ [sysLabel]
      let m1 : Model :=
        { m with
            messages := msgs
            viewport := { m.viewport with content := String.intercalate "\n" msgs
                                          atBottom := true }
            textarea := { m.textarea with value := "" } }
      some { model := widgetPass m1 (.key .enter)
             cmds := [.widget, .widget]
             sent := some message }
  | .key (.char c) =>
      some { model := widgetPass m (.key (.char c)), cmds := [.widget, .widget] }
  | .resize w h =>
      let m1 : Model :=
        { m with width := w, height := h, textarea := { m.textarea with width := w } }
      some { model := widgetPass m1 (.resize w h), cmds := [.widget, .widget] }
  | .delta f =>
      match m.messages.getLast? with
      | none => none
      | some last =>
          let msgs := m.messages.dropLast ++ [last ++ f]
          let m1 : Model :=
            { m with
                messages := msgs
                viewport := { m.viewport with content := String.intercalate "\n" msgs
                                              atBottom := true } }
          some { model := widgetPass m1 (.delta f)
                 cmds := [.waitForDelta, .widget, .widget] }
  | .err e =>
      some { model := { m with err := some e }, cmds := [] }

/-- Processing a list of messages through the event loop in order, stopping
with `none` if any single step faults. -/
def runMsgs (m : Model) : List Msg → Option Model
  | [] => some m
  | msg :: rest =>
      match update m msg with
      | none => none
      | some r => runMsgs r.model rest

/-! ## The completion requester: `createChatCompletion` (main.go lines 170–203)

The Go function is an infinite loop: receive a message from `inputMessage`,
call `client.CreateChatCompletionStream` with that message as the sole
request content, then read the stream — forwarding each
`response.Choices[0].Delta.Content` onto `deltaMessage` — until `io.EOF`
(loop back) or another error (return it as an `errMsg`).

We embed it as a function of its interaction script: the list of values
received from `inputMessage`, each paired with the behaviour of the stream
the remote service answers with (`StreamScript`). -/

/-- An `openai.ChatCompletionMessage`: a role-tagged content string. -/
structure ChatMessage where
  role : String
  content : String
  deriving Repr, DecidableEq

/-- An `openai.ChatCompletionRequest` as the program builds it: a model
identifier and a message list. -/
structure ChatCompletionRequest where
  model : String
  messages : List ChatMessage
  deriving Repr, DecidableEq

/-- The request built in main.go lines 174–182: model `openai.GPT3Dot5Turbo`
(`"gpt-3.5-turbo"`), a single message with role `openai.ChatMessageRoleUser`
(`"user"`) whose content is the value received from `inputMessage`. -/
def mkRequest (v : String) : ChatCompletionRequest where
  model := "gpt-3.5-turbo"
  messages := [{ role := "user", content := v }]

/-- How a successfully opened stream ends: a clean `io.EOF`, or a read
failure with error `e`. -/
inductive StreamEnd where
  | eof
  | fail (e : String)
  deriving Repr, DecidableEq

/-- The remote behaviour answering one request: either
`CreateChatCompletionStream` itself fails (`initErr = some e`), or it
succeeds and `Recv` yields the fragments `frags` in order followed by
`ending`. -/
structure StreamScript where
  initErr : Option String
  frags : List String
  ending : StreamEnd
  deriving Repr, DecidableEq

/-- A script whose request succeeds and whose stream ends cleanly. -/
def IsClean (s : StreamScript) : Prop := s.initErr = none ∧ s.ending = .eof

instance (s : StreamScript) : Decidable (IsClean s) := by
  unfold IsClean; infer_instance

/-- The error, if any, with which a script aborts the requester loop:
the request-initiation error, or the non-EOF stream-read error. -/
def scriptErr (s : StreamScript) : Option String :=
  match s.initErr with
  | some e => some e
  | none => match s.ending with
            | .eof => none
            | .fail e => some e

/-- The fragments the requester forwards while consuming one script: all of
them when the stream opens, none when initiation fails. -/
def scriptSent (s : StreamScript) : List String :=
  match s.initErr with
  | some _ => []
  | none => s.frags

/-- The observable trace of the requester over a finite script: the requests
it issued in order, the fragments it sent on `deltaMessage` in order, and
`result = some e` when the loop returned the error `e` as an `errMsg`
(`none` means the loop is back at `<-m.inputMessage`, waiting). -/
structure ReqTrace where
  requests : List ChatCompletionRequest
  sent : List String
  result : Option String
  deriving Repr, DecidableEq

/-- Shallow embedding of the `createChatCompletion` command loop over a
finite interaction script (one received input paired with one stream
behaviour per cycle).  Mirrors the Go control flow: build the request; if
`CreateChatCompletionStream` fails return the error; otherwise forward every
fragment `Recv` yields, then on `io.EOF` continue with the next cycle and on
any other error return it. -/
def createChatCompletion : List (String × StreamScript) → ReqTrace
  | [] => { requests := [], sent := [], result := none }
  | (v, s) :: rest =>
      match s.initErr with
      | some e => { requests := [mkRequest v], sent := [], result := some e }
      | none =>
          match s.ending with
          | .fail e => { requests := [mkRequest v], sent := s.frags, result := some e }
          | .eof =>
              let t := createChatCompletion rest
              { requests := mkRequest v :: t.requests
                sent := s.frags ++ t.sent
                result := t.result }

/-- The requests of an all-clean script: one per submission, in order. -/
def allRequests (ps : List (String × StreamScript)) : List ChatCompletionRequest :=
  ps.map (fun p => mkRequest p.1)

/-- The fragments of an all-clean script, concatenated in order. -/
def allFragments : List (String × StreamScript) → List String
  | [] => []
  | p :: ps => p.2.frags ++ allFragments ps

/-! ## The whole system: event loop ∥ requester

A small-step relation over the joint state of the bubbletea program and the
requester goroutine.  It captures exactly the synchronisation of the source:

* `inputMessage` and `deltaMessage` are unbuffered channels — a send blocks
  until the matching receive (`rendezvous`, `sendFrag`);
* `waitForDelta` runs as a one-shot goroutine: it is armed by `Init` and
  re-armed by the command the `deltaMsg` branch returns; only an armed
  receiver lets the requester's fragment send complete, and the received
  fragment is then enqueued on the program's message queue;
* the event loop processes queued messages one at a time, and while the
  `KeyEnter` branch is blocked in `m.inputMessage <- message` no further
  message can be dispatched;
* `tea.Quit` terminates the program: a quitted state has no successor. -/

/-- Where the event loop is: dispatching freely, blocked inside the enter
branch on the `inputMessage` send, or terminated by `tea.Quit`. -/
inductive LoopPhase where
  | idle
  | blocked (v : String)
  | quitted
  deriving Repr, DecidableEq

/-- Where the requester goroutine is: at `<-m.inputMessage`, inside the
stream-reading loop with the given fragments still to read, or returned
(after emitting an `errMsg`). -/
inductive ReqPhase where
  | waiting
  | streaming (frags : List String) (ending : StreamEnd)
  | stopped
  deriving Repr, DecidableEq

/-- Joint state of the running system.  `armed` is the `waitForDelta`
receiver; `queue` is the bubbletea message queue; `scripts` are the stream
behaviours the remote service will answer future requests with; `requests`
and `stdout` are the observable network and standard-output logs. -/
structure Sys where
  model : Model
  loop : LoopPhase
  armed : Bool
  queue : List Msg
  req : ReqPhase
  scripts : List StreamScript
  requests : List ChatCompletionRequest
  stdout : List String
  deriving Repr, DecidableEq

/-- Messages the environment (user keyboard, terminal) can inject; `deltaMsg`
and `errMsg` values originate only from the requester. -/
def isUiMsg : Msg → Bool
  | .key _ => true
  | .resize _ _ => true
  | _ => false

/-- The initial system state after `initialModel` and `Init` (main.go lines
106–112): fresh model, event loop idle with an empty queue, `waitForDelta`
armed, requester started and blocked at `<-m.inputMessage`, nothing issued
or printed. -/
def initSys (scripts : List StreamScript) : Sys where
  model := initialModel
  loop := .idle
  armed := true
  queue := []
  req := .waiting
  scripts := scripts
  requests := []
  stdout := []

/-- One step of the concurrent system. -/
inductive SysStep : Sys → Sys → Prop where
  /-- The environment enqueues a keystroke or resize notification. -/
  | inject (s : Sys) (msg : Msg) (hui : isUiMsg msg = true) (hq : s.loop ≠ .quitted) :
      SysStep s { s with queue := s.queue ++ [msg] }
  /-- The idle event loop dispatches the head of the queue through `update`:
  the command list may re-arm `waitForDelta`; `tea.Quit` terminates the loop
  (after printing); a channel send leaves the loop blocked until the
  requester receives. -/
  | dispatch (s : Sys) (msg : Msg) (rest : List Msg) (r : StepResult)
      (hl : s.loop = .idle) (hq : s.queue = msg :: rest)
      (hr : update s.model msg = some r) :
      SysStep s { s with
        model := r.model
        queue := rest
        armed := s.armed || r.cmds.contains .waitForDelta
        loop := if r.quit then .quitted else
                  match r.sent with
                  | some v => .blocked v
                  | none => .idle
        stdout := s.stdout ++ (match r.printed with
                               | some out => [out]
                               | none => []) }
  /-- The unbuffered `inputMessage` rendezvous: possible only when the loop
  is blocked in its send and the requester is back at `<-m.inputMessage`.
  The requester builds and issues the request; if initiation fails the
  resulting `errMsg` is enqueued and the requester loop returns, otherwise
  the stream is open. -/
  | rendezvous (s : Sys) (v : String) (scr : StreamScript) (rest : List StreamScript)
      (hl : s.loop = .blocked v) (hw : s.req = .waiting) (hs : s.scripts = scr :: rest) :
      SysStep s { s with
        loop := .idle
        scripts := rest
        requests := s.requests ++ [mkRequest v]
        req := match scr.initErr with
               | some _ => .stopped
               | none => .streaming scr.frags scr.ending
        queue := s.queue ++ (match scr.initErr with
                             | some e => [Msg.err e]
                             | none => []) }
  /-- The unbuffered `deltaMessage` rendezvous: the requester's fragment send
  completes against the armed `waitForDelta` receiver, which delivers the
  fragment to the program queue and is then spent. -/
  | sendFrag (s : Sys) (f : String) (fs : List String) (ed : StreamEnd)
      (hr : s.req = .streaming (f :: fs) ed) (ha : s.armed = true)
      (hq : s.loop ≠ .quitted) :
      SysStep s { s with armed := false, queue := s.queue ++ [Msg.delta f]
                         req := .streaming fs ed }
  /-- `Recv` returns `io.EOF`: the requester loops back to
  `<-m.inputMessage`. -/
  | streamEof (s : Sys) (hr : s.req = .streaming [] .eof) (hq : s.loop ≠ .quitted) :
      SysStep s { s with req := .waiting }
  /-- `Recv` fails with a non-EOF error: the requester returns it as an
  `errMsg` and its loop terminates. -/
  | streamFail (s : Sys) (e : String) (hr : s.req = .streaming [] (.fail e))
      (hq : s.loop ≠ .quitted) :
      SysStep s { s with queue := s.queue ++ [Msg.err e], req := .stopped }

/-- Reachability in the system: reflexive-transitive closure of `SysStep`. -/
abbrev SysReach : Sys → Sys → Prop := Relation.ReflTransGen SysStep

/-! ## Sequential sessions

The event-loop message sequence of a session in which the user types each
message, submits it, and the whole response streams back before the next
keystroke: for each pair `(input, frags)`, the character keys of `input`,
the enter key, then one `deltaMsg` per fragment. -/

/-- The keystrokes composing `input` in the textarea. -/
def typeMsgs (input : String) : List Msg :=
  input.data.map (fun c => Msg.key (.char c))

/-- Type one message, submit it, and receive its response fragments. -/
def submissionMsgs (p : String × List String) : List Msg :=
  typeMsgs p.1 ++ [Msg.key .enter] ++ p.2.map Msg.delta

/-- The full message sequence of a sequential session. -/
def sessionMsgs : List (String × List String) → List Msg
  | [] => []
  | p :: ps => submissionMsgs p ++ sessionMsgs ps

/-- The transcript a sequential session should produce: per submission, the
styled user line and the response line holding all fragments concatenated in
arrival order. -/
def expectedTranscript : List (String × List String) → List String
  | [] => []
  | p :: ps => (youLabel ++ p.1) :: (sysLabel ++ String.join p.2) :: expectedTranscript ps

/-! ## A concrete interleaved execution

Two empty submissions (the user presses Enter twice) against a service that
answers the first request with fragments `"A"`, `"B"` and the second with
`"C"`, all streams ending cleanly.  The second Enter is pressed after
fragment `"A"` was applied but before fragment `"B"` was sent: the armed
`waitForDelta` receiver then delivers `"B"` into the queue while the loop is
blocked in its `inputMessage` send, so `"B"` is dispatched only after the
second submission appended its two lines — and lands on the second response
line.  Every state below is reached by exactly one `SysStep`. -/

/-- Stream behaviour answering the first request: fragments `"A"`, `"B"`,
clean EOF. -/
def scriptA : StreamScript := { initErr := none, frags := ["A", "B"], ending := .eof }

/-- Stream behaviour answering the second request: fragment `"C"`, clean
EOF. -/
def scriptC : StreamScript := { initErr := none, frags := ["C"], ending := .eof }

/-- Initial state of the interleaved execution. -/
def raceInit : Sys := initSys [scriptA, scriptC]

/-- The user presses Enter (first submission, empty input). -/
def race1 : Sys := { raceInit with queue := [Msg.key .enter] }

/-- Model after the first Enter dispatch: user line and placeholder appended,
loop blocked sending `""` to the requester. -/
def mSub1 : Model :=
  { initialModel with
      messages := [youLabel, sysLabel]
      viewport := { initialModel.viewport with
                      content := String.intercalate "\n" [youLabel, sysLabel]
                      atBottom := true } }

/-- First Enter dispatched; loop blocked on the `inputMessage` send. -/
def race2 : Sys := { race1 with model := mSub1, queue := [], loop := .blocked "" }

/-- First `inputMessage` rendezvous: request issued, stream `scriptA` open. -/
def race3 : Sys :=
  { race2 with
      loop := .idle
      scripts := [scriptC]
      requests := [mkRequest ""]
      req := .streaming ["A", "B"] .eof }

/-- Fragment `"A"` sent to the armed receiver and enqueued. -/
def race4 : Sys :=
  { race3 with armed := false, queue := [Msg.delta "A"], req := .streaming ["B"] .eof }

/-- Model after fragment `"A"` was applied to the first response line. -/
def mSub1A : Model :=
  { mSub1 with
      messages := [youLabel, sysLabel ++ "A"]
      viewport := { mSub1.viewport with
                      content := String.intercalate "\n" [youLabel, sysLabel ++ "A"] } }

/-- Fragment `"A"` dispatched; `waitForDelta` re-armed. -/
def race5 : Sys := { race4 with model := mSub1A, queue := [], armed := true }

/-- The user presses Enter again while the first stream is still open. -/
def race6 : Sys := { race5 with queue := [Msg.key .enter] }

/-- Model after the second Enter dispatch: two more lines appended. -/
def mSub2 : Model :=
  { mSub1A with
      messages := [youLabel, sysLabel ++ "A", youLabel, sysLabel]
      viewport := { mSub1A.viewport with
                      content := String.intercalate "\n"
                        [youLabel, sysLabel ++ "A", youLabel, sysLabel] } }

/-- Second Enter dispatched; loop blocked on the `inputMessage` send while
the requester still streams the first response. -/
def race7 : Sys := { race6 with model := mSub2, queue := [], loop := .blocked "" }

/-- Fragment `"B"` of the FIRST response sent to the armed receiver and
enqueued behind the already-processed second submission. -/
def race8 : Sys :=
  { race7 with armed := false, queue := [Msg.delta "B"], req := .streaming [] .eof }

/-- The first stream ends cleanly; the requester loops back to receive. -/
def race9 : Sys := { race8 with req := .waiting }

/-- Second `inputMessage` rendezvous: the blocked send completes, the second
request is issued, stream `scriptC` open. -/
def race10 : Sys :=
  { race9 with
      loop := .idle
      scripts := []
      requests := [mkRequest "", mkRequest ""]
      req := .streaming ["C"] .eof }

/-- Model after the queued fragment `"B"` is dispatched: it is appended to
the LAST transcript line, which now belongs to the second response. -/
def mSub2B : Model :=
  { mSub2 with
      messages := [youLabel, sysLabel ++ "A", youLabel, sysLabel ++ "B"]
      viewport := { mSub2.viewport with
                      content := String.intercalate "\n"
                        [youLabel, sysLabel ++ "A", youLabel, sysLabel ++ "B"] } }

/-- Fragment `"B"` dispatched onto the wrong response line. -/
def race11 : Sys := { race10 with model := mSub2B, queue := [], armed := true }

/-- Fragment `"C"` of the second response sent and enqueued. -/
def race12 : Sys :=
  { race11 with armed := false, queue := [Msg.delta "C"], req := .streaming [] .eof }

/-- Model after fragment `"C"` is applied. -/
def mSub2BC : Model :=
  { mSub2B with
      messages := [youLabel, sysLabel ++ "A", youLabel, sysLabel ++ "B" ++ "C"]
      viewport := { mSub2B.viewport with
                      content := String.intercalate "\n"
                        [youLabel, sysLabel ++ "A", youLabel, sysLabel ++ "B" ++ "C"] } }

/-- Fragment `"C"` dispatched. -/
def race13 : Sys := { race12 with model := mSub2BC, queue := [], armed := true }

/-- The second stream ends cleanly: the system is quiescent (empty queue,
requester waiting, no error ever emitted). -/
def raceFinal : Sys := { race13 with req := .waiting }

/-- The inductive invariant behind the safety of the unguarded
`m.messages[len(m.messages)-1]` index of the `deltaMsg` branch: whenever the
loop is blocked in a send (a submission was just appended), the requester is
streaming (a submission was received), or a fragment is already queued, the
transcript is non-empty. -/
def SysInv (s : Sys) : Prop :=
  ((∃ v, s.loop = .blocked v) ∨ (∃ fs ed, s.req = .streaming fs ed) ∨
      (∃ f, Msg.delta f ∈ s.queue)) →
    s.model.messages ≠ []

/-! # Theorems -/

/-- Transport a system step along an equality of target states. -/
theorem SysStep.cast {a b c : Sys} (h : SysStep a b) (h2 : b = c) : SysStep a c :=
  h2 ▸ h

/-! ## The interleaved execution, step by step -/

theorem raceStep1 : SysStep raceInit race1 :=
  SysStep.cast (.inject raceInit (Msg.key .enter) rfl (by decide)) (by decide)

theorem raceStep2 : SysStep race1 race2 :=
  SysStep.cast (.dispatch race1 (Msg.key .enter) [] _ rfl rfl rfl) (by decide)

theorem raceStep3 : SysStep race2 race3 :=
  SysStep.cast (.rendezvous race2 "" scriptA [scriptC] rfl rfl rfl) (by decide)

theorem raceStep4 : SysStep race3 race4 :=
  SysStep.cast (.sendFrag race3 "A" ["B"] .eof rfl rfl (by decide)) (by decide)

theorem raceStep5 : SysStep race4 race5 :=
  SysStep.cast (.dispatch race4 (Msg.delta "A") [] _ rfl rfl rfl) (by decide)

theorem raceStep6 : SysStep race5 race6 :=
  SysStep.cast (.inject race5 (Msg.key .enter) rfl (by decide)) (by decide)

theorem raceStep7 : SysStep race6 race7 :=
  SysStep.cast (.dispatch race6 (Msg.key .enter) [] _ rfl rfl rfl) (by decide)

theorem raceStep8 : SysStep race7 race8 :=
  SysStep.cast (.sendFrag race7 "B" [] .eof rfl rfl (by decide)) (by decide)

theorem raceStep9 : SysStep race8 race9 :=
  SysStep.cast (.streamEof race8 rfl (by decide)) (by decide)

theorem raceStep10 : SysStep race9 race10 :=
  SysStep.cast (.rendezvous race9 "" scriptC [] rfl rfl rfl) (by decide)

theorem raceStep11 : SysStep race10 race11 :=
  SysStep.cast (.dispatch race10 (Msg.delta "B") [] _ rfl rfl rfl) (by decide)

theorem raceStep12 : SysStep race11 race12 :=
  SysStep.cast (.sendFrag race11 "C" [] .eof rfl rfl (by decide)) (by decide)

theorem raceStep13 : SysStep race12 race13 :=
  SysStep.cast (.dispatch race12 (Msg.delta "C") [] _ rfl rfl rfl) (by decide)

theorem raceStep14 : SysStep race13 raceFinal :=
  SysStep.cast (.streamEof race13 rfl (by decide)) (by decide)

/-- The state with the first fragment sitting in the queue is reachable. -/
theorem raceReachMid : SysReach raceInit race4 :=
  .head raceStep1 (.head raceStep2 (.head raceStep3 (.head raceStep4 .refl)))

/-- The quiescent final state of the interleaved execution is reachable. -/
theorem raceReach : SysReach raceInit raceFinal :=
  Relation.ReflTransGen.trans raceReachMid
    (.head raceStep5 (.head raceStep6 (.head raceStep7 (.head raceStep8
      (.head raceStep9 (.head raceStep10 (.head raceStep11 (.head raceStep12
        (.head raceStep13 (.head raceStep14 .refl))))))))))

/-! ## Single-event claims about `Update` -/

/-- C4: when the event loop processes an error event, it records the error
value in its state and leaves the transcript unchanged — the `errMsg` branch
returns `(m with err set, nil)`: no transcript line is mutated, the partially
built response line keeps exactly the fragments applied before the failure,
and no command is issued. -/
theorem c4_error_event (m : Model) (e : String) :
    update m (Msg.err e) = some { model := { m with err := some e }, cmds := [] } ∧
    ({ m with err := some e } : Model).messages = m.messages ∧
    ({ m with err := some e } : Model).err = some e :=
  ⟨rfl, rfl, rfl⟩

/-- C5: waiting for the next fragment is one branch of the single event
dispatch: processing a fragment event is an ordinary (non-blocking) `update`
case that returns exactly one new `waitForDelta` command, and keystroke and
resize events are handled by other branches of the same dispatch, which never
fault. -/
theorem c5_fragment_rearm (m : Model) (f : String) (h : m.messages ≠ []) :
    (∃ r, update m (Msg.delta f) = some r ∧
        r.cmds = [Cmd.waitForDelta, Cmd.widget, Cmd.widget] ∧
        r.cmds.count Cmd.waitForDelta = 1 ∧
        r.quit = false ∧ r.sent = none) ∧
    (∀ k, update m (Msg.key k) ≠ none) ∧
    (∀ w hh, update m (Msg.resize w hh) ≠ none) := by
  refine ⟨?_, ?_, ?_⟩
  · cases hg : m.messages.getLast? with
    | none => exact absurd (List.getLast?_eq_none_iff.mp hg) h
    | some last =>
        have heq : update m (Msg.delta f) =
            some { model := widgetPass
                      { m with
                          messages := m.messages.dropLast ++ [last ++ f]
                          viewport := { m.viewport with
                                          content := String.intercalate "\n"
                                            (m.messages.dropLast ++ [last ++ f])
                                          atBottom := true } }
                      (Msg.delta f)
                   cmds := [Cmd.waitForDelta, Cmd.widget, Cmd.widget] } := by
          simp [update, hg]
        exact ⟨_, heq, rfl, rfl, rfl, rfl⟩
  · intro k; cases k <;> simp [update]
  · intro w hh; simp [update]

/-- Witness for C5 at a one-line transcript and fragment `"y"`. -/
theorem c5_fragment_rearm_witness :
    ({ initialModel with messages := ["x"] } : Model).messages ≠ [] ∧
    ((∃ r, update { initialModel with messages := ["x"] } (Msg.delta "y") = some r ∧
        r.cmds = [Cmd.waitForDelta, Cmd.widget, Cmd.widget] ∧
        r.cmds.count Cmd.waitForDelta = 1 ∧
        r.quit = false ∧ r.sent = none) ∧
      (∀ k, update { initialModel with messages := ["x"] } (Msg.key k) ≠ none) ∧
      (∀ w hh, update { initialModel with messages := ["x"] } (Msg.resize w hh) ≠ none)) :=
  ⟨by decide, c5_fragment_rearm { initialModel with messages := ["x"] } "y" (by decide)⟩

/-- C6: pressing Escape or Interrupt in any state prints exactly the current
pending input text and returns `tea.Quit`, mutating nothing (the branch
returns the model unchanged, before any transcript operation); and a quitted
system state has no successor at all, so no transcript mutation can follow
the quit event. -/
theorem c6_quit_flush :
    (∀ m : Model,
        update m (Msg.key .esc) =
          some { model := m, cmds := [], printed := some m.textarea.value, quit := true } ∧
        update m (Msg.key .ctrlC) =
          some { model := m, cmds := [], printed := some m.textarea.value, quit := true }) ∧
    (∀ s s2 : Sys, s.loop = .quitted → ¬ SysStep s s2) := by
  refine ⟨fun m => ⟨rfl, rfl⟩, ?_⟩
  intro s s2 hq h
  cases h <;> simp_all

/-- Witness for C6: the quit equations at the initial model, and the absence
of any step out of a concrete quitted state. -/
theorem c6_quit_flush_witness :
    update initialModel (Msg.key .esc) =
      some { model := initialModel, cmds := [], printed := some "", quit := true } ∧
    ¬ SysStep { raceInit with loop := .quitted } raceInit :=
  ⟨(c6_quit_flush.1 initialModel).1,
   c6_quit_flush.2 { raceInit with loop := .quitted } raceInit rfl⟩

/-- C7: the program implements the second of the two policies the spec
permits for an empty submission: the Enter branch does not test for
emptiness, so an empty pending input appends exactly one user line (the
styled `"You: "` label with empty message content) plus the response
placeholder, and sends exactly one empty message to the requester, whose
request then carries `""` as its sole content. -/
theorem c7_empty_submission (m : Model) (h : m.textarea.value = "") :
    ∃ r, update m (Msg.key .enter) = some r ∧
      r.model.messages = m.messages ++ [youLabel, sysLabel] ∧
      r.sent = some "" ∧
      (mkRequest "").messages = [{ role := "user", content := "" }] ∧
      r.quit = false := by
  refine ⟨_, rfl, ?_, ?_, rfl, rfl⟩
  · show (m.messages ++ [youLabel ++ m.textarea.value]) ++ [sysLabel] = _
    rw [h, String.append_empty, List.append_assoc]
    rfl
  · show some m.textarea.value = some ""
    rw [h]

/-- Witness for C7 at the initial model, whose pending input is empty. -/
theorem c7_empty_submission_witness :
    initialModel.textarea.value = "" ∧
    (∃ r, update initialModel (Msg.key .enter) = some r ∧
      r.model.messages = initialModel.messages ++ [youLabel, sysLabel] ∧
      r.sent = some "" ∧
      (mkRequest "").messages = [{ role := "user", content := "" }] ∧
      r.quit = false) :=
  ⟨rfl, c7_empty_submission initialModel rfl⟩

/-- C8: a window-resize event stores the new dimensions and sets the input
widget width to the new window width, while the transcript and the viewport
(content and pinned-to-bottom state) are untouched, no quit, no send, no
print and no fragment-wait command is produced. -/
theorem c8_resize_frame (m : Model) (w h : Int) :
    ∃ r, update m (Msg.resize w h) = some r ∧
      r.model.width = w ∧ r.model.height = h ∧
      r.model.textarea.width = w ∧
      r.model.messages = m.messages ∧
      r.model.viewport = m.viewport ∧
      r.model.textarea.value = m.textarea.value ∧
      r.model.err = m.err ∧
      r.cmds.count Cmd.waitForDelta = 0 ∧
      r.quit = false ∧ r.sent = none ∧ r.printed = none :=
  ⟨_, rfl, rfl, rfl, rfl, rfl, rfl, rfl, rfl, rfl, rfl, rfl, rfl⟩

/-! ## Requester claims -/

/-- C2: over any all-clean interaction script the requester issues exactly
one streaming request per received message — the message list carrying that
text as its sole content — forwards the fragments of each stream verbatim
and in order onto the fragment hand-off, and after the last clean
end-of-stream is back at the receive (`result = none`), ready for the next
submitted message. -/
theorem c2_requester_cycle (ps : List (String × StreamScript))
    (h : ∀ p ∈ ps, IsClean p.2) :
    createChatCompletion ps =
      { requests := allRequests ps, sent := allFragments ps, result := none } ∧
    (∀ v, (mkRequest v).messages = [{ role := "user", content := v }]) := by
  refine ⟨?_, fun v => rfl⟩
  induction ps with
  | nil => rfl
  | cons p ps ih =>
      obtain ⟨v, s⟩ := p
      obtain ⟨h1, h2⟩ := h (v, s) (List.mem_cons_self _ _)
      have h1s : s.initErr = none := h1
      have h2s : s.ending = .eof := h2
      have ih2 := ih (fun q hq => h q (List.mem_cons_of_mem _ hq))
      simp [createChatCompletion, h1s, h2s, ih2, allRequests, allFragments]

/-- Witness for C2: one clean cycle answering `"hi"` with fragments
`["A", "B"]`. -/
theorem c2_requester_cycle_witness :
    (∀ p ∈ [("hi", scriptA)], IsClean p.2) ∧
    (createChatCompletion [("hi", scriptA)] =
      { requests := allRequests [("hi", scriptA)]
        sent := allFragments [("hi", scriptA)]
        result := none } ∧
     ∀ v, (mkRequest v).messages = [{ role := "user", content := v }]) :=
  ⟨by decide, c2_requester_cycle [("hi", scriptA)] (by decide)⟩

/-- C3: the first fatal error — a request-initiation failure or a non-EOF
stream-read failure — is returned exactly once as the requester's result;
the cycles before it behave normally, nothing after it is processed (no
request is issued for, and no fragment is forwarded from, any later
submission), and the loop does not resume: there is no retry. -/
theorem c3_requester_fatal (good : List (String × StreamScript)) (v : String)
    (bad : StreamScript) (rest : List (String × StreamScript)) (e : String)
    (hg : ∀ p ∈ good, IsClean p.2) (he : scriptErr bad = some e) :
    createChatCompletion (good ++ (v, bad) :: rest) =
      { requests := allRequests good ++ [mkRequest v]
        sent := allFragments good ++ scriptSent bad
        result := some e } := by
  induction good with
  | nil =>
      cases hinit : bad.initErr with
      | some e0 =>
          have : e0 = e := by simp [scriptErr, hinit] at he; exact he
          subst this
          simp [createChatCompletion, hinit, allRequests, allFragments, scriptSent]
      | none =>
          cases hend : bad.ending with
          | eof => simp [scriptErr, hinit, hend] at he
          | fail e0 =>
              have : e0 = e := by simp [scriptErr, hinit, hend] at he; exact he
              subst this
              simp [createChatCompletion, hinit, hend, allRequests, allFragments, scriptSent]
  | cons p good ih =>
      obtain ⟨v0, s0⟩ := p
      obtain ⟨h1, h2⟩ := hg (v0, s0) (List.mem_cons_self _ _)
      have h1s : s0.initErr = none := h1
      have h2s : s0.ending = .eof := h2
      have ih2 := ih (fun q hq => hg q (List.mem_cons_of_mem _ hq))
      simp [createChatCompletion, h1s, h2s, ih2, allRequests, allFragments]

/-- Witness for C3: one clean cycle, then a stream that yields `"x"` and
fails with `"boom"`, followed by a further submission that is ignored. -/
theorem c3_requester_fatal_witness :
    (∀ p ∈ [("a", scriptC)], IsClean p.2) ∧
    scriptErr { initErr := none, frags := ["x"], ending := .fail "boom" } = some "boom" ∧
    createChatCompletion
        ([("a", scriptC)] ++
          ("q", { initErr := none, frags := ["x"], ending := .fail "boom" }) :: [("r", scriptA)]) =
      { requests := allRequests [("a", scriptC)] ++ [mkRequest "q"]
        sent := allFragments [("a", scriptC)] ++
          scriptSent { initErr := none, frags := ["x"], ending := .fail "boom" }
        result := some "boom" } :=
  ⟨by decide, rfl,
   c3_requester_fatal [("a", scriptC)] "q"
     { initErr := none, frags := ["x"], ending := .fail "boom" } [("r", scriptA)] "boom"
     (by decide) rfl⟩

/-! ## Concurrency claims -/

/-- C9: while the event loop is blocked in the `inputMessage` send of the
Enter branch, no step changes the UI state or the printed output and no
queued event is dispatched (the queue only grows); the only step that
unblocks the loop is the rendezvous, which requires the requester to have
finished its current stream and be back at its receive. -/
theorem c9_backpressure (s s2 : Sys) (v : String)
    (hstep : SysStep s s2) (hb : s.loop = .blocked v) :
    s2.model = s.model ∧ s2.stdout = s.stdout ∧
    (∃ t, s2.queue = s.queue ++ t) ∧
    (s2.loop = .blocked v ∨ (s2.loop = .idle ∧ s.req = .waiting)) := by
  cases hstep with
  | inject msg hui hq =>
      exact ⟨rfl, rfl, ⟨[msg], rfl⟩, Or.inl hb⟩
  | dispatch msg rest r hl hq hr =>
      rw [hb] at hl; exact absurd hl (by simp)
  | rendezvous v0 scr rest hl hw hs =>
      rw [hb] at hl
      obtain rfl : v0 = v := by injection hl with h; exact h.symm
      exact ⟨rfl, rfl, ⟨_, rfl⟩, Or.inr ⟨rfl, hw⟩⟩
  | sendFrag f fs ed hr ha hq =>
      exact ⟨rfl, rfl, ⟨[Msg.delta f], rfl⟩, Or.inl hb⟩
  | streamEof hr hq =>
      exact ⟨rfl, rfl, ⟨[], (List.append_nil _).symm⟩, Or.inl hb⟩
  | streamFail e hr hq =>
      exact ⟨rfl, rfl, ⟨[Msg.err e], rfl⟩, Or.inl hb⟩

/-- A single `update` step never empties a non-empty transcript: every branch
either keeps `messages` or appends to it, and the `deltaMsg` branch replaces
the last line. -/
theorem update_messages_ne_nil {m : Model} {msg : Msg} {r : StepResult}
    (h : update m msg = some r) (hm : m.messages ≠ []) : r.model.messages ≠ [] := by
  cases msg with
  | key k =>
      cases k with
      | ctrlC => simp [update] at h; subst h; exact hm
      | esc => simp [update] at h; subst h; exact hm
      | enter =>
          simp [update] at h; subst h
          simp [widgetPass, textareaUpdate, viewportUpdate, List.append_eq_nil]
      | char c =>
          simp [update] at h; subst h
          simpa [widgetPass, textareaUpdate, viewportUpdate] using hm
  | resize w hh =>
      simp [update] at h; subst h
      simpa [widgetPass, textareaUpdate, viewportUpdate] using hm
  | delta f =>
      cases hg : m.messages.getLast? with
      | none => exact absurd (List.getLast?_eq_none_iff.mp hg) hm
      | some last =>
          simp [update, hg] at h; subst h
          simp [widgetPass, textareaUpdate, viewportUpdate, List.append_eq_nil]
  | err e => simp [update] at h; subst h; exact hm

/-- Only the Enter branch sends on `inputMessage`, and it first appends the
user line and the placeholder: a step that sends leaves a non-empty
transcript. -/
theorem update_sent_messages_ne_nil {m : Model} {msg : Msg} {r : StepResult} {v : String}
    (h : update m msg = some r) (hs : r.sent = some v) : r.model.messages ≠ [] := by
  cases msg with
  | key k =>
      cases k with
      | ctrlC => simp [update] at h; subst h; simp at hs
      | esc => simp [update] at h; subst h; simp at hs
      | enter =>
          simp [update] at h; subst h
          simp [widgetPass, textareaUpdate, viewportUpdate, List.append_eq_nil]
      | char c => simp [update] at h; subst h; simp at hs
  | resize w hh => simp [update] at h; subst h; simp at hs
  | delta f =>
      cases hg : m.messages.getLast? with
      | none => simp [update, hg] at h
      | some last => simp [update, hg] at h; subst h; simp at hs
  | err e => simp [update] at h; subst h; simp at hs

/-- A message that is not a fragment is always processed without fault. -/
theorem update_isSome_of_not_delta (m : Model) (msg : Msg)
    (h : ∀ f, msg ≠ Msg.delta f) : update m msg ≠ none := by
  cases msg with
  | key k => cases k <;> simp [update]
  | resize w hh => simp [update]
  | delta f => exact absurd rfl (h f)
  | err e => simp [update]

/-- A fragment event is processed without fault whenever the transcript is
non-empty. -/
theorem update_delta_isSome (m : Model) (f : String) (hm : m.messages ≠ []) :
    update m (Msg.delta f) ≠ none := by
  cases hg : m.messages.getLast? with
  | none => exact absurd (List.getLast?_eq_none_iff.mp hg) hm
  | some last => simp [update, hg]

/-- The invariant holds initially: nothing is blocked, streaming or queued. -/
theorem sysInv_init (scripts : List StreamScript) : SysInv (initSys scripts) := by
  rintro (⟨v, hv⟩ | ⟨fs, ed, hr⟩ | ⟨f, hf⟩)
  · exact absurd hv (by simp [initSys])
  · exact absurd hr (by simp [initSys])
  · exact absurd hf (by simp [initSys])

/-- The invariant is preserved by every system step. -/
theorem sysInv_step {s s2 : Sys} (h : SysStep s s2) (hi : SysInv s) : SysInv s2 := by
  cases h with
  | inject msg hui hq =>
      rintro (hb | hstr | ⟨f, hf⟩)
      · exact hi (Or.inl hb)
      · exact hi (Or.inr (Or.inl hstr))
      · rcases List.mem_append.mp hf with h1 | h2
        · exact hi (Or.inr (Or.inr ⟨f, h1⟩))
        · obtain rfl : msg = Msg.delta f := (List.mem_singleton.mp h2).symm
          simp [isUiMsg] at hui
  | dispatch msg rest r hl hq hr =>
      rintro (⟨v, hv⟩ | ⟨fs, ed, hstr⟩ | ⟨f, hf⟩)
      · by_cases hqt : r.quit
        · simp [hqt] at hv
        · rcases hsent : r.sent with _ | v0
          · simp [hqt, hsent] at hv
          · exact update_sent_messages_ne_nil hr hsent
      · exact update_messages_ne_nil hr (hi (Or.inr (Or.inl ⟨fs, ed, hstr⟩)))
      · have : Msg.delta f ∈ s.queue := by
          rw [hq]; exact List.mem_cons_of_mem _ hf
        exact update_messages_ne_nil hr (hi (Or.inr (Or.inr ⟨f, this⟩)))
  | rendezvous v0 scr rest hl hw hs =>
      exact fun _ => hi (Or.inl ⟨v0, hl⟩)
  | sendFrag f fs ed hr ha hq =>
      exact fun _ => hi (Or.inr (Or.inl ⟨f :: fs, ed, hr⟩))
  | streamEof hr hq =>
      exact fun _ => hi (Or.inr (Or.inl ⟨[], .eof, hr⟩))
  | streamFail e hr hq =>
      exact fun _ => hi (Or.inr (Or.inl ⟨[], .fail e, hr⟩))

/-- The invariant holds in every reachable state. -/
theorem sysInv_reach {scripts : List StreamScript} {s : Sys}
    (h : SysReach (initSys scripts) s) : SysInv s := by
  induction h with
  | refl => exact sysInv_init scripts
  | tail h1 h2 ih => exact sysInv_step h2 ih

/-- C10: in every reachable state of the system, whenever a fragment event is
queued for processing the transcript is non-empty — every fragment delivery
is preceded by a submission that appended the user line and the placeholder —
so dispatching the head of the queue never faults: in particular the
unguarded `m.messages[len(m.messages)-1]` of the fragment handler is always
in range. -/
theorem c10_delta_safety (scripts : List StreamScript) (s : Sys)
    (hreach : SysReach (initSys scripts) s) :
    (∀ f, Msg.delta f ∈ s.queue → s.model.messages ≠ []) ∧
    (∀ msg rest, s.queue = msg :: rest → update s.model msg ≠ none) := by
  have hinv := sysInv_reach hreach
  constructor
  · exact fun f hf => hinv (Or.inr (Or.inr ⟨f, hf⟩))
  · intro msg rest hq
    cases hmsg : msg with
    | delta f =>
        apply update_delta_isSome
        apply hinv
        exact Or.inr (Or.inr ⟨f, by rw [hq, hmsg]; exact List.mem_cons_self _ _⟩)
    | key k => exact update_isSome_of_not_delta _ _ (by simp)
    | resize w hh => exact update_isSome_of_not_delta _ _ (by simp)
    | err e => exact update_isSome_of_not_delta _ _ (by simp)

/-- Witness for C10 at the reachable state of the interleaved execution in
which fragment `"A"` is queued behind a two-line transcript. -/
theorem c10_delta_safety_witness :
    Msg.delta "A" ∈ race4.queue ∧
    race4.model.messages ≠ [] ∧
    update race4.model (Msg.delta "A") ≠ none :=
  ⟨by decide,
   (c10_delta_safety [scriptA, scriptC] race4 raceReachMid).1 "A" (by decide),
   (c10_delta_safety [scriptA, scriptC] race4 raceReachMid).2 (Msg.delta "A") [] rfl⟩

/-- Witness for C9: the step that delivers fragment `"B"` while the loop is
blocked sending the second submission in the interleaved execution. -/
theorem c9_backpressure_witness :
    race7.loop = .blocked "" ∧
    (race8.model = race7.model ∧ race8.stdout = race7.stdout ∧
     (∃ t, race8.queue = race7.queue ++ t) ∧
     (race8.loop = .blocked "" ∨ (race8.loop = .idle ∧ race7.req = .waiting))) :=
  ⟨rfl, c9_backpressure race7 race8 "" raceStep8 rfl⟩

/-! ## Transcript shape of sequential sessions (C1) -/

/-- Structure eta for strings. -/
theorem string_mk_data (s : String) : String.mk s.data = s := rfl

/-- `String.join` distributes over cons. -/
theorem join_cons (a : String) (l : List String) :
    String.join (a :: l) = a ++ String.join l :=
  String.ext (by simp)

/-- `runMsgs` processes an appended message list in two stages. -/
theorem runMsgs_append (a b : List Msg) (m : Model) :
    runMsgs m (a ++ b) = (runMsgs m a).bind (fun m1 => runMsgs m1 b) := by
  induction a generalizing m with
  | nil => rfl
  | cons msg a ih =>
      cases h : update m msg with
      | none => simp [runMsgs, h]
      | some r => simp [runMsgs, h, ih]

/-- Typing characters only grows the textarea value (while under the char
limit); nothing else in the model changes. -/
theorem runMsgs_type (cs : List Char) (m : Model)
    (h : m.textarea.value.length + cs.length ≤ m.textarea.charLimit) :
    runMsgs m (cs.map (fun c => Msg.key (.char c))) =
      some { m with textarea := { m.textarea with
                                    value := String.mk (m.textarea.value.data ++ cs) } } := by
  induction cs generalizing m with
  | nil =>
      rw [show m.textarea.value.data ++ ([] : List Char) = m.textarea.value.data from
            List.append_nil _]
      rfl
  | cons c cs ih =>
      have hlt : m.textarea.value.length < m.textarea.charLimit := by
        simp at h; omega
      have hupd : update m (Msg.key (.char c)) =
          some { model := { m with textarea := { m.textarea with
                                                   value := m.textarea.value.push c } }
                 cmds := [Cmd.widget, Cmd.widget] } := by
        simp [update, widgetPass, textareaUpdate, viewportUpdate, hlt]
      have hih := ih { m with textarea := { m.textarea with
                                              value := m.textarea.value.push c } }
        (by simp [String.length_push]; simp at h; omega)
      simp only [List.map_cons, runMsgs, hupd, hih]
      congr 2
      simp [List.append_assoc]

/-- The `deltaMsg` branch, given the last transcript line: it replaces that
line by its extension with the fragment and touches neither the textarea nor
the error field. -/
theorem update_delta_eq (m : Model) (f last : String)
    (hg : m.messages.getLast? = some last) :
    ∃ r, update m (Msg.delta f) = some r ∧
      r.model.messages = m.messages.dropLast ++ [last ++ f] ∧
      r.model.textarea = m.textarea ∧
      r.model.err = m.err := by
  have heq : update m (Msg.delta f) =
      some { model := widgetPass
                { m with
                    messages := m.messages.dropLast ++ [last ++ f]
                    viewport := { m.viewport with
                                    content := String.intercalate "\n"
                                      (m.messages.dropLast ++ [last ++ f])
                                    atBottom := true } }
                (Msg.delta f)
             cmds := [Cmd.waitForDelta, Cmd.widget, Cmd.widget] } := by
    simp [update, hg]
  exact ⟨_, heq, by simp [widgetPass, textareaUpdate, viewportUpdate],
         by simp [widgetPass, textareaUpdate, viewportUpdate],
         by simp [widgetPass, textareaUpdate, viewportUpdate]⟩

/-- Applying a run of fragment events to a transcript ending in `last`
concatenates them, in order, onto that line. -/
theorem runMsgs_deltas (fs : List String) (pre : List String) (last : String) (m : Model)
    (hm : m.messages = pre ++ [last]) :
    ∃ m2, runMsgs m (fs.map Msg.delta) = some m2 ∧
      m2.messages = pre ++ [last ++ String.join fs] ∧
      m2.textarea = m.textarea ∧ m2.err = m.err := by
  induction fs generalizing m last with
  | nil =>
      refine ⟨m, rfl, ?_, rfl, rfl⟩
      rw [hm]
      have : last ++ String.join [] = last := String.append_empty _
      rw [this]
  | cons f fs ih =>
      have hg : m.messages.getLast? = some last := by
        rw [hm]; exact List.getLast?_concat _
      have hd : m.messages.dropLast = pre := by
        rw [hm]; exact List.dropLast_concat
      obtain ⟨r, hr, h1, h2, h3⟩ := update_delta_eq m f last hg
      obtain ⟨m2, g1, g2, g3, g4⟩ := ih (last ++ f) r.model (by rw [h1, hd])
      refine ⟨m2, ?_, ?_, g3.trans h2, g4.trans h3⟩
      · simp only [List.map_cons, runMsgs, hr]
        exact g1
      · rw [g2, join_cons, ← String.append_assoc]

/-- The Enter branch: appends the styled user line and the placeholder,
resets the textarea value and sends the submitted text. -/
theorem update_enter_eq (m : Model) :
    ∃ r, update m (Msg.key .enter) = some r ∧
      r.model.messages = m.messages ++ [youLabel ++ m.textarea.value, sysLabel] ∧
      r.model.textarea.value = "" ∧
      r.model.textarea.charLimit = m.textarea.charLimit ∧
      r.model.err = m.err ∧
      r.sent = some m.textarea.value := by
  refine ⟨_, rfl, ?_, rfl, rfl, rfl, rfl⟩
  show (m.messages ++ [youLabel ++ m.textarea.value]) ++ [sysLabel] = _
  rw [List.append_assoc]
  rfl

/-- One full sequential submission: type the text, press Enter, receive the
whole response.  Exactly two lines are appended: the styled user line and
the response line carrying the concatenated fragments. -/
theorem runMsgs_submission (p : String × List String) (m : Model)
    (hv : m.textarea.value = "") (hc : m.textarea.charLimit = 280)
    (hlen : p.1.length ≤ 280) :
    ∃ m2, runMsgs m (submissionMsgs p) = some m2 ∧
      m2.messages = m.messages ++ [youLabel ++ p.1, sysLabel ++ String.join p.2] ∧
      m2.textarea.value = "" ∧ m2.textarea.charLimit = 280 := by
  have hbound : m.textarea.value.length + p.1.data.length ≤ m.textarea.charLimit := by
    rw [hv, hc]
    have h0 : ("" : String).length = 0 := rfl
    have h1 : p.1.data.length = p.1.length := rfl
    rw [h0, h1]
    omega
  have htype := runMsgs_type p.1.data m hbound
  have hvalA : (String.mk (m.textarea.value.data ++ p.1.data)) = p.1 := by
    rw [hv]
    exact string_mk_data p.1
  obtain ⟨r, henter, e1, e2, e3, e4, e5⟩ :=
    update_enter_eq { m with textarea := { m.textarea with
                                             value := String.mk (m.textarea.value.data ++ p.1.data) } }
  obtain ⟨m2, d1, d2, d3, d4⟩ := runMsgs_deltas p.2
    (m.messages ++ [youLabel ++ p.1]) sysLabel r.model
    (by rw [e1]; simp [hvalA, List.append_assoc])
  refine ⟨m2, ?_, ?_, ?_, ?_⟩
  · show runMsgs m ((typeMsgs p.1 ++ [Msg.key .enter]) ++ p.2.map Msg.delta) = some m2
    rw [runMsgs_append, runMsgs_append]
    show ((runMsgs m (p.1.data.map (fun c => Msg.key (.char c)))).bind
            (fun m1 => runMsgs m1 [Msg.key .enter])).bind
          (fun m1 => runMsgs m1 (p.2.map Msg.delta)) = some m2
    rw [htype]
    show (runMsgs _ [Msg.key .enter]).bind (fun m1 => runMsgs m1 (p.2.map Msg.delta)) = some m2
    simp only [runMsgs, henter]
    exact d1
  · rw [d2]
    simp [List.append_assoc]
  · rw [d3, e2]
  · rw [d3]; exact e3.trans hc

/-- A sequential session appends, per submission, exactly the expected pair
of lines, and leaves the textarea empty. -/
theorem runMsgs_session (ps : List (String × List String)) (m : Model)
    (hv : m.textarea.value = "") (hc : m.textarea.charLimit = 280)
    (hlen : ∀ p ∈ ps, p.1.length ≤ 280) :
    ∃ m2, runMsgs m (sessionMsgs ps) = some m2 ∧
      m2.messages = m.messages ++ expectedTranscript ps ∧
      m2.textarea.value = "" ∧ m2.textarea.charLimit = 280 := by
  induction ps generalizing m with
  | nil => exact ⟨m, rfl, by simp [expectedTranscript], hv, hc⟩
  | cons p ps ih =>
      obtain ⟨mA, h1, h2, h3, h4⟩ :=
        runMsgs_submission p m hv hc (hlen p (List.mem_cons_self _ _))
      obtain ⟨m2, g1, g2, g3, g4⟩ :=
        ih mA h3 h4 (fun q hq => hlen q (List.mem_cons_of_mem _ hq))
      refine ⟨m2, ?_, ?_, g3, g4⟩
      · show runMsgs m (submissionMsgs p ++ sessionMsgs ps) = some m2
        rw [runMsgs_append, h1]
        exact g1
      · rw [g2, h2]
        show _ = m.messages ++ expectedTranscript (p :: ps)
        rw [expectedTranscript]
        simp [List.append_assoc]

/-- The expected transcript has two lines per submission. -/
theorem expectedTranscript_length (ps : List (String × List String)) :
    (expectedTranscript ps).length = 2 * ps.length := by
  induction ps with
  | nil => rfl
  | cons p ps ih => simp [expectedTranscript, ih]; omega

/-- C1 does not hold as stated: a complete, error-free execution of the
system with `N = 2` submissions in which the second message is submitted
while the first response is still streaming.  The transcript does end with
`2N = 4` lines, but the first response line holds only fragment `"A"` of the
two fragments `["A", "B"]` delivered for it — fragment `"B"` was enqueued
while the event loop was blocked in its `inputMessage` send and was applied,
after the second submission, to the second response line.  (The final two
conjuncts also record that a response line is never literally equal to the
bare fragment concatenation, because it begins with the styled `"System: "`
label.) -/
theorem c1_counterexample :
    SysReach (initSys [scriptA, scriptC]) raceFinal ∧
    (raceFinal.queue = [] ∧ raceFinal.loop = .idle ∧ raceFinal.req = .waiting ∧
     raceFinal.model.err = none ∧ raceFinal.stdout = [] ∧
     raceFinal.requests = [mkRequest "", mkRequest ""] ∧
     raceFinal.model.messages =
       [youLabel, sysLabel ++ "A", youLabel, sysLabel ++ "B" ++ "C"] ∧
     raceFinal.model.messages.length = 2 * 2 ∧
     scriptA.frags = ["A", "B"] ∧ scriptC.frags = ["C"] ∧
     raceFinal.model.messages[1]? = some (sysLabel ++ "A") ∧
     sysLabel ++ "A" ≠ String.join scriptA.frags ∧
     sysLabel ++ "A" ≠ sysLabel ++ String.join scriptA.frags) :=
  ⟨raceReach, by decide⟩

/-- C1 (amended): provided the session is sequential — each message is
submitted only after every fragment of the previous response has been
applied — processing `N` submissions without error yields a transcript of
exactly `2N` appended lines: per submission, one user line and one response
line equal to the styled `"System: "` label followed by the concatenation,
in arrival order, of exactly the fragments delivered for that response. -/
theorem c1_transcript_sequential (ps : List (String × List String))
    (hlen : ∀ p ∈ ps, p.1.length ≤ 280) :
    ∃ m2, runMsgs initialModel (sessionMsgs ps) = some m2 ∧
      m2.messages = expectedTranscript ps ∧
      m2.messages.length = 2 * ps.length := by
  obtain ⟨m2, h1, h2, _h3, _h4⟩ := runMsgs_session ps initialModel rfl rfl hlen
  have hmsg : m2.messages = expectedTranscript ps := by rw [h2]; rfl
  exact ⟨m2, h1, hmsg, by rw [hmsg, expectedTranscript_length]⟩

/-- Witness for the amended C1: the session typing `"hi"`, submitting it and
receiving the fragments `"Hel"`, `"lo"`, `" world"` in order. -/
theorem c1_transcript_sequential_witness :
    (∀ p ∈ [("hi", ["Hel", "lo", " world"])], p.1.length ≤ 280) ∧
    (∃ m2,
      runMsgs initialModel (sessionMsgs [("hi", ["Hel", "lo", " world"])]) = some m2 ∧
      m2.messages = expectedTranscript [("hi", ["Hel", "lo", " world"])] ∧
      m2.messages.length = 2 * ([("hi", ["Hel", "lo", " world"])] : List (String × List String)).length) :=
  ⟨by decide, c1_transcript_sequential [("hi", ["Hel", "lo", " world"])] (by decide)⟩

end GptCli
